import Mathlib

/-!
Verification development for the voiceai voiceover pipeline
(`src/chunking.ts`, `src/render.ts`, `src/utils.ts`, `src/outputs.ts`,
`src/ffmpeg.ts`).

The TypeScript code is shallowly embedded: strings are Lean `String`s
(the scripts under scrutiny are ASCII, so JS UTF-16 code-unit lengths
coincide with codepoint counts), JS numbers holding durations are
modelled as `Rat` (every concrete duration appearing in the claims is
dyadic, so IEEE double arithmetic computes the same values), JS objects
used as string-keyed maps are functions `String → Option _`, and the
effectful render pass is modelled by explicit environment records
(disk state, TTS client, duration probe) threaded through a fold.
-/

namespace VoiceAI

/-! ## JS string primitives -/

/-- ECMAScript white space / line terminator characters, the set matched
by the regex class `\s` and removed by `String.prototype.trim`. -/
def jsWs (c : Char) : Bool :=
  c = ' ' ∨ c = '\t' ∨ c = '\n' ∨ c = '\r' ∨
  c = Char.ofNat 11 ∨ c = Char.ofNat 12 ∨ c = Char.ofNat 160 ∨
  c = Char.ofNat 0x1680 ∨ (0x2000 ≤ c.toNat ∧ c.toNat ≤ 0x200a) ∨
  c = Char.ofNat 0x2028 ∨ c = Char.ofNat 0x2029 ∨ c = Char.ofNat 0x202f ∨
  c = Char.ofNat 0x205f ∨ c = Char.ofNat 0x3000 ∨ c = Char.ofNat 0xfeff

/-- JS `trim` on a character list: drop JS whitespace from both ends. -/
def jsTrimL (l : List Char) : List Char :=
  ((l.dropWhile jsWs).reverse.dropWhile jsWs).reverse

/-- JS `String.prototype.trim`. -/
def jsTrim (s : String) : String :=
  String.mk (jsTrimL s.data)

/-- Remove every JS whitespace character (used to compare strings up to
whitespace, the equivalence the chunk-concatenation claims are stated in). -/
def stripWs (s : String) : String :=
  String.mk (s.data.filter (fun c => !jsWs c))

/-- JS `String(n).padStart(width, '0')` for a natural number. -/
def jsPadStart (s : String) (width : Nat) (c : Char) : String :=
  String.mk (List.replicate (width - s.length) c) ++ s

/-! ## utils.ts -/

/-- Function `zeroPad` (utils.ts): zero-pad a number to width 3, e.g. `3 → "003"`. -/
def zeroPad (n : Nat) : String :=
  jsPadStart (toString n) 3 '0'

/-- The character class `[a-z0-9]` kept by `slugify`. -/
def slugKeep (c : Char) : Bool :=
  ('a' ≤ c ∧ c ≤ 'z') ∨ ('0' ≤ c ∧ c ≤ '9')

/-- Replace every maximal run of non-`[a-z0-9]` characters by a single
dash, mirroring `.replace(/[^a-z0-9]+/g, '-')`.  Structural recursion on
a fuel counter keeps the definition kernel-computable; every step
consumes at least one character, so `fuel = length` never runs out. -/
def dashRunsAux : Nat → List Char → List Char
  | 0, _ => []
  | _, [] => []
  | fuel + 1, c :: cs =>
    if slugKeep c then c :: dashRunsAux fuel cs
    else '-' :: dashRunsAux fuel (cs.dropWhile (fun x => !slugKeep x))

def dashRuns (l : List Char) : List Char := dashRunsAux l.length l

/-- Strip one leading and one trailing run of dashes, mirroring
`.replace(/^-+|-+$/g, '')`. -/
def stripDashes (l : List Char) : List Char :=
  ((l.dropWhile (fun c => c = '-')).reverse.dropWhile (fun c => c = '-')).reverse

/-- Function `slugify` (utils.ts): lowercase, drop apostrophes (U+0027 and U+2019),
collapse non-alphanumeric runs to single dashes, strip boundary dashes,
keep the first 60 characters.  Lowercasing is modelled on ASCII letters. -/
def slugify (text : String) : String :=
  let lowered := text.data.map Char.toLower
  let noApos := lowered.filter (fun c => !(c = Char.ofNat 39 ∨ c = Char.ofNat 8217))
  String.mk ((stripDashes (dashRuns noApos)).take 60)

/-! ## chunking.ts: markdown heading parser -/

/-- A raw `{ title, text }` section produced by the markdown parser. -/
structure Section' where
  title : String
  text : String
deriving DecidableEq, Repr

/-- The trimmed capture of `/^##\s+(.+)$/` when the line matches
(two hashes, at least one whitespace character, at least one further
character), `none` otherwise.  The code always trims the capture, and
trimming the full tail of the line yields the same string. -/
def h2MatchTitle (line : String) : Option String :=
  match line.data with
  | '#' :: '#' :: c :: d :: rest =>
    if jsWs c then some (jsTrim (String.mk (c :: d :: rest))) else none
  | _ => none

/-- The trimmed capture of `/^#\s+(.+)$/` when the line matches, `none`
otherwise.  A `##` line never matches because its second character is
`#`, not whitespace. -/
def h1MatchTitle (line : String) : Option String :=
  match line.data with
  | '#' :: c :: d :: rest =>
    if jsWs c then some (jsTrim (String.mk (c :: d :: rest))) else none
  | _ => none

/-- JS `currentLines.some((l) => l.trim())`: a pending body is non-empty. -/
def hasContent (lines : List String) : Bool :=
  lines.any (fun l => !(jsTrim l).isEmpty)

/-- JS `currentLines.join('\n').trim()`: the body text of a section. -/
def sectionText (lines : List String) : String :=
  jsTrim (String.intercalate "\n" lines)

/-- Parser state of `parseMarkdownHeadings`: accumulated sections, the
pending `##` title (empty string when none), pending body lines, and the
captured H1 title (empty string when none). -/
structure PmhState where
  sections : List Section'
  currentTitle : String
  currentLines : List String
  h1Title : String
deriving Repr

/-- Push the pending section when `currentTitle || currentLines.some(...)`
holds, titling it by `currentTitle || h1Title || 'Preamble'`. -/
def pmhFlush (st : PmhState) : List Section' :=
  if !st.currentTitle.isEmpty ∨ hasContent st.currentLines then
    st.sections ++
      [⟨if !st.currentTitle.isEmpty then st.currentTitle
        else if !st.h1Title.isEmpty then st.h1Title else "Preamble",
        sectionText st.currentLines⟩]
  else st.sections

/-- One loop iteration of `parseMarkdownHeadings` over a line. -/
def pmhStep (st : PmhState) (line : String) : PmhState :=
  match h2MatchTitle line with
  | some t => { sections := pmhFlush st, currentTitle := t, currentLines := [], h1Title := st.h1Title }
  | none =>
    match h1MatchTitle line with
    | some t =>
      if st.currentTitle.isEmpty ∧ st.sections = [] then
        { st with h1Title := t }
      else
        { st with currentLines := st.currentLines ++ [line] }
    | none => { st with currentLines := st.currentLines ++ [line] }

/-- Split a character list at every occurrence of `c`, JS
`String.prototype.split` semantics: the empty input yields one empty
field, separators at the ends yield empty fields. -/
def splitOnChar (c : Char) : List Char → List (List Char)
  | [] => [[]]
  | x :: xs =>
    match splitOnChar c xs with
    | [] => [[]]
    | g :: gs => if x = c then [] :: g :: gs else (x :: g) :: gs

/-- JS `content.split('\n')`. -/
def splitLines (s : String) : List String :=
  (splitOnChar '\n' s.data).map String.mk

/-- Function `parseMarkdownHeadings` (chunking.ts): split markdown on `##`
headings, title a leading preamble by the H1 (else `"Preamble"`), and
drop sections whose trimmed body is empty. -/
def parseMarkdownHeadings (content : String) : List Section' :=
  let lines := splitLines content
  let final := lines.foldl pmhStep ⟨[], "", [], ""⟩
  (pmhFlush final).filter (fun s => !s.text.isEmpty)

/-! ## chunking.ts: sentence auto-chunking -/

/-- Sentence terminator characters, the class `[.!?]`. -/
def isTermChar (c : Char) : Bool :=
  c = '.' ∨ c = '!' ∨ c = '?'

/-- All matches of `/[^.!?]+[.!?]+[\s]*/g`, as character lists: a match
is a non-empty run of non-terminators, a non-empty run of `.!?`, and any
following whitespace; positions that cannot start a match are skipped
(their characters appear in no match).  Structural recursion on a fuel
counter keeps the definition kernel-computable; every step consumes at
least one character, so `fuel = length` never runs out. -/
def scanSentencesAux : Nat → List Char → List (List Char)
  | 0, _ => []
  | _, [] => []
  | fuel + 1, c :: cs =>
    if isTermChar c then scanSentencesAux fuel cs
    else
      match (c :: cs).dropWhile (fun x => !isTermChar x) with
      | [] => []
      | t :: ts =>
        ((c :: cs).takeWhile (fun x => !isTermChar x) ++
          (t :: ts).takeWhile isTermChar ++
          ((t :: ts).dropWhile isTermChar).takeWhile jsWs) ::
        scanSentencesAux fuel (((t :: ts).dropWhile isTermChar).dropWhile jsWs)

def scanSentences (l : List Char) : List (List Char) :=
  scanSentencesAux l.length l

/-- The sentence-unit list of `autoChunk`:
`text.match(/[^.!?]+[.!?]+[\s]*/g)`, as strings; empty iff the regex has
no match (JS returns `null` in that case). -/
def sentenceUnits (text : String) : List String :=
  (scanSentences text.data).map String.mk

/-- A chunk `{ title, text }` produced by `autoChunk`. -/
structure Chunk where
  title : String
  text : String
deriving DecidableEq, Repr

/-- The accumulation loop of `autoChunk`: greedily extend `current` with
the next sentence; when adding it would exceed `maxChars` and `current`
is non-empty, close the current chunk (trimmed).  A non-empty trimmed
remainder is flushed at the end. -/
def chunkLoop (maxChars : Nat) : List String → List Chunk → String → Nat → List Chunk
  | [], chunks, current, chunkNum =>
    if !(jsTrim current).isEmpty then
      chunks ++ [⟨"Segment " ++ toString chunkNum, jsTrim current⟩]
    else chunks
  | sentence :: rest, chunks, current, chunkNum =>
    if current.length + sentence.length > maxChars ∧ current.length > 0 then
      chunkLoop maxChars rest
        (chunks ++ [⟨"Segment " ++ toString chunkNum, jsTrim current⟩])
        sentence (chunkNum + 1)
    else
      chunkLoop maxChars rest chunks (current ++ sentence) chunkNum

/-- The `?? [text]` fallback around the sentence match: the unit list the
chunk loop actually consumes. -/
def codeSentences (content : String) (maxChars : Nat) : List String :=
  let text := jsTrim content
  if text.length ≤ maxChars then [text]
  else
    match sentenceUnits text with
    | [] => [text]
    | ss => ss

/-- Function `autoChunk` (chunking.ts): one chunk when the trimmed content fits in
`maxChars`, otherwise greedy accumulation of sentence units. -/
def autoChunk (content : String) (maxChars : Nat) : List Chunk :=
  let text := jsTrim content
  if text.length ≤ maxChars then [⟨"Segment 1", text⟩]
  else
    let sentences :=
      match sentenceUnits text with
      | [] => [text]
      | ss => ss
    chunkLoop maxChars sentences [] "" 1

/-! ## chunking.ts: chunkScript pipeline -/

/-- The `source` tag of a segment. -/
inductive Source where
  | heading
  | auto
  | template
deriving DecidableEq, Repr

/-- Type `Segment` (chunking.ts): a numbered, slugged, hashed unit of script. -/
structure Segment where
  index : Nat
  title : String
  slug : String
  text : String
  source : Source
  hash : String
deriving DecidableEq, Repr

/-- A raw section before numbering/hashing. -/
structure RawSection where
  title : String
  text : String
  source : Source
deriving DecidableEq, Repr

inductive ChunkMode where
  | headings
  | auto
deriving DecidableEq, Repr

inductive TemplateName where
  | youtube
  | podcast
  | shortform
deriving DecidableEq, Repr

structure ChunkOptions where
  mode : ChunkMode
  maxChars : Nat
  language : Option String
  template : Option TemplateName
  voiceId : String
deriving Repr

/-- Constant `TEMPLATE_MAP` (chunking.ts): optional intro/outro file names. -/
def TEMPLATE_MAP : TemplateName → Option String × Option String
  | TemplateName.youtube => (some "youtube_intro.txt", some "youtube_outro.txt")
  | TemplateName.podcast => (some "podcast_intro.txt", none)
  | TemplateName.shortform => (some "shortform_hook.txt", none)

/-- The template directory as seen by `loadTemplate`: `read f` is the raw
content of file `f` under `templateDir` when it exists, `none` otherwise. -/
structure TemplateEnv where
  read : String → Option String

/-- Function `loadTemplate` (chunking.ts): trimmed file content, or `none` when
the file is missing. -/
def loadTemplate (env : TemplateEnv) (filename : String) : Option String :=
  (env.read filename).map jsTrim

/-- The `Intro` section unshifted by step 2 of `chunkScript` when the
configured intro file loads to non-empty text (the code's truthiness
test on the loaded string skips empty content), as a zero-or-one-element
list. -/
def introSections (env : TemplateEnv) (fOpt : Option String) : List RawSection :=
  match fOpt with
  | some f =>
    match loadTemplate env f with
    | some t => if !t.isEmpty then [⟨"Intro", t, Source.template⟩] else []
    | none => []
  | none => []

/-- The `Outro` section pushed by step 2 of `chunkScript`, likewise. -/
def outroSections (env : TemplateEnv) (fOpt : Option String) : List RawSection :=
  match fOpt with
  | some f =>
    match loadTemplate env f with
    | some t => if !t.isEmpty then [⟨"Outro", t, Source.template⟩] else []
    | none => []
  | none => []

/-- Step 2 of `chunkScript`: unshift an `Intro` and/or push an `Outro`
section around the parsed sections. -/
def applyTemplates (env : TemplateEnv) (opts : ChunkOptions)
    (raw : List RawSection) : List RawSection :=
  match opts.template with
  | none => raw
  | some tname =>
    introSections env (TEMPLATE_MAP tname).1 ++ raw ++
      outroSections env (TEMPLATE_MAP tname).2

/-- Step 3 of `chunkScript`: assign 1-based indices in order, slugs from
titles, and content hashes.  `contentHash` is a SHA-256 digest computed
by an external crypto library, so the embedding abstracts it as the
function argument `hashFn`; no claim depends on digest values, only on
how `chunkScript` feeds it `(text, voiceId, language-or-"en")`. -/
def finalizeSegments (raw : List RawSection) (opts : ChunkOptions)
    (hashFn : String → String → String → String) : List Segment :=
  raw.enum.map (fun p =>
    ⟨p.1 + 1, p.2.title, slugify p.2.title, p.2.text, p.2.source,
      hashFn p.2.text opts.voiceId (opts.language.getD "en")⟩)

/-- Step 1 of `chunkScript`: pick heading sections when heading mode
finds at least one title other than `'Preamble'`/`'Untitled Section'`,
otherwise fall back to `autoChunk`. -/
def rawSectionsOf (content : String) (opts : ChunkOptions) : List RawSection :=
  match opts.mode with
  | ChunkMode.headings =>
    let headingSections := parseMarkdownHeadings content
    let hasRealHeadings := headingSections.any
      (fun s => s.title ≠ "Preamble" ∧ s.title ≠ "Untitled Section")
    if hasRealHeadings ∧ headingSections.length > 0 then
      headingSections.map (fun s => ⟨s.title, s.text, Source.heading⟩)
    else
      (autoChunk content opts.maxChars).map (fun s => ⟨s.title, s.text, Source.auto⟩)
  | ChunkMode.auto =>
    (autoChunk content opts.maxChars).map (fun s => ⟨s.title, s.text, Source.auto⟩)

/-- Function `chunkScript` (chunking.ts): parse, chunk, apply templates, then
number/slug/hash. -/
def chunkScript (content : String) (opts : ChunkOptions) (env : TemplateEnv)
    (hashFn : String → String → String → String) : List Segment :=
  finalizeSegments (applyTemplates env opts (rawSectionsOf content opts)) opts hashFn

/-! ## render.ts: data model and environment -/

/-- Type of `CacheManifest` entries (render.ts): `{ hash, file, duration }`. -/
structure CacheEntry where
  hash : String
  file : String
  duration : Rat
deriving DecidableEq, Repr

/-- A cache manifest: a JS object keyed by segment key. -/
def CacheMap : Type := String → Option CacheEntry

/-- The empty manifest (`{}`), also what a missing or corrupt cache file
loads as. -/
def CacheMap.empty : CacheMap := fun _ => none

/-- JS object assignment `m[k] = v`. -/
def CacheMap.set (m : CacheMap) (k : String) (v : CacheEntry) : CacheMap :=
  fun q => if q = k then some v else m q

structure RenderOptions where
  voiceId : String
  outputDir : String
  force : Bool
  mock : Bool
  language : Option String

/-- Type `RenderResult` (render.ts). -/
structure RenderResult where
  segment : Segment
  filePath : String
  fileName : String
  cached : Bool
  duration : Rat
deriving DecidableEq, Repr

/-- The request `renderSegments` sends to `client.generateSpeech`. -/
structure TTSRequest where
  text : String
  voice_id : String
  audio_format : String
  language : Option String
deriving DecidableEq, Repr

/-- The TTS response: audio bytes plus a self-reported duration. -/
structure TTSResponse where
  audio_data : String
  duration_seconds : Rat
deriving DecidableEq, Repr

/-- The world a render pass runs against: the parsed on-disk cache
manifest (missing or unparseable files load as the empty map, so the
load policy is absorbed into this field), the pre-pass file system, the
TTS collaborator, and the `ffprobe` duration probe (`none` both when the
tool is unavailable and when probing fails, per `probeDuration`). -/
structure Env where
  diskCache : CacheMap
  fileExists : String → Bool
  tts : TTSRequest → Except String TTSResponse
  probe : String → Option Rat

/-- POSIX `path.join` for the opaque path names used here. -/
def joinPath (a b : String) : String := a ++ "/" ++ b

/-- Function `segmentFileName` (render.ts): zero-padded index, slug (with a
slugified-title fallback for an empty slug), `.wav` extension. -/
def segmentFileName (s : Segment) : String :=
  zeroPad s.index ++ "-" ++ (if s.slug.isEmpty then slugify s.title else s.slug) ++ ".wav"

/-- Function `segmentCacheKey` (render.ts): zero-padded index plus slug. -/
def segmentCacheKey (s : Segment) : String :=
  zeroPad s.index ++ "-" ++ s.slug

/-- The on-disk path of a segment's audio file. -/
def segmentFilePath (opts : RenderOptions) (s : Segment) : String :=
  joinPath (joinPath opts.outputDir "segments") (segmentFileName s)

/-! ## render.ts: the render pass -/

/-- The hit condition of render.ts lines 99-104:
`!options.force && cache[key]?.hash === currentHash &&
cache[key]?.file === fileName && await fileExists(filePath)`.
The optional chains compare to `undefined` when the entry is absent, so
`cache[key]?.hash === currentHash` is exactly
`(cache key).map hash = some currentHash`. -/
abbrev cacheHit (opts : RenderOptions) (env : Env) (cache : CacheMap)
    (s : Segment) : Prop :=
  opts.force = false ∧
  (cache (segmentCacheKey s)).map CacheEntry.hash = some s.hash ∧
  (cache (segmentCacheKey s)).map CacheEntry.file = some (segmentFileName s) ∧
  env.fileExists (segmentFilePath opts s) = true

/-- The first loop of `renderSegments`: decide hit/miss for one segment
against the loaded cache and the pre-pass file system.  All four hit
conditions are checked before any file is written, so the pre-pass
`fileExists` is the state every check sees.  On a hit the duration is
the cache entry's (the entry exists under the hit condition, so the
`getD 0` fallback never fires). -/
def checkSegment (opts : RenderOptions) (env : Env) (cache : CacheMap)
    (s : Segment) : RenderResult :=
  if cacheHit opts env cache s then
    ⟨s, segmentFilePath opts s, segmentFileName s, true,
      ((cache (segmentCacheKey s)).map CacheEntry.duration).getD 0⟩
  else
    ⟨s, segmentFilePath opts s, segmentFileName s, false, 0⟩

/-- The request built at render.ts line 146 for a miss result. -/
def reqOf (opts : RenderOptions) (r : RenderResult) : TTSRequest :=
  ⟨r.segment.text, opts.voiceId, "wav", opts.language⟩

/-- The error message thrown on a synthesis failure (render.ts line 171). -/
def renderErrMsg (title err : String) : String :=
  "Failed to render segment \"" ++ title ++ "\": " ++ err

/-- Mutable state of the second loop: the in-memory `updatedCache`, the
audio file paths written so far, and the trace of segments for which a
`generateSpeech` call was issued (successful or not). -/
structure LoopState where
  cache : CacheMap
  written : List String
  calls : List Segment

/-- The second loop of `renderSegments`: cached results pass through; a
miss issues a TTS call, writes the audio file, takes the probed duration
with the response estimate as fallback, and records a cache entry whose
duration is the response estimate; a TTS failure aborts with a message
naming the segment title. -/
def renderLoop (env : Env) (opts : RenderOptions) :
    List RenderResult → LoopState → LoopState × Except String (List RenderResult)
  | [], st => (st, Except.ok [])
  | r :: rest, st =>
    if r.cached then
      ((renderLoop env opts rest st).1,
        (renderLoop env opts rest st).2.map (fun out => r :: out))
    else
      match env.tts (reqOf opts r) with
      | Except.error err =>
        ({ st with calls := st.calls ++ [r.segment] },
          Except.error (renderErrMsg r.segment.title err))
      | Except.ok resp =>
        let st2 : LoopState :=
          { cache := st.cache.set (segmentCacheKey r.segment)
              ⟨r.segment.hash, r.fileName, resp.duration_seconds⟩,
            written := st.written ++ [r.filePath],
            calls := st.calls ++ [r.segment] }
        ((renderLoop env opts rest st2).1,
          (renderLoop env opts rest st2).2.map (fun out =>
            { r with duration := (env.probe r.filePath).getD resp.duration_seconds } :: out))

/-- The cache `renderSegments` starts from: empty when `--force`,
otherwise the loaded on-disk manifest. -/
def startCache (env : Env) (opts : RenderOptions) : CacheMap :=
  if opts.force then CacheMap.empty else env.diskCache

/-- The phase-one result list. -/
def preResults (segs : List Segment) (env : Env) (opts : RenderOptions) :
    List RenderResult :=
  segs.map (checkSegment opts env (startCache env opts))

/-- Everything a call to `renderSegments` does: the returned results (or
the thrown error), the final in-memory cache, the files written, and the
synthesis calls issued. -/
structure RenderPass where
  results : Except String (List RenderResult)
  memCache : CacheMap
  written : List String
  ttsCalls : List Segment

/-- Function `renderSegments` (render.ts): phase one decides hits against the
loaded cache, phase two renders the misses in order. -/
def renderSegments (segs : List Segment) (env : Env) (opts : RenderOptions) :
    RenderPass :=
  let out := renderLoop env opts (preResults segs env opts) ⟨startCache env opts, [], []⟩
  ⟨out.2, out.1.cache, out.1.written, out.1.calls⟩

/-- Whether the pass completed (no synthesis failure). -/
def passOk (segs : List Segment) (env : Env) (opts : RenderOptions) : Bool :=
  (renderSegments segs env opts).results.isOk

/-- The returned result list of a successful pass (empty on failure —
the exception propagates and the caller receives no results). -/
def resultsOf (segs : List Segment) (env : Env) (opts : RenderOptions) :
    List RenderResult :=
  match (renderSegments segs env opts).results with
  | Except.ok rs => rs
  | Except.error _ => []

/-- The audio file paths written by the pass. -/
def writtenOf (segs : List Segment) (env : Env) (opts : RenderOptions) :
    List String :=
  (renderSegments segs env opts).written

/-- The trace of segments sent to `generateSpeech` during the pass. -/
def ttsCallsOf (segs : List Segment) (env : Env) (opts : RenderOptions) :
    List Segment :=
  (renderSegments segs env opts).ttsCalls

/-- The on-disk manifest after the pass: `saveCacheManifest` runs exactly
once, after the loop, so a successful pass persists the in-memory cache
and a failed pass leaves the old file untouched (the throw skips the
save). -/
def manifestAfter (segs : List Segment) (env : Env) (opts : RenderOptions) :
    CacheMap :=
  match (renderSegments segs env opts).results with
  | Except.ok _ => (renderSegments segs env opts).memCache
  | Except.error _ => env.diskCache

/-! ## utils.ts: timestamp formatting (over `Rat` durations) -/

/-- JS `x % y`: remainder truncated toward zero. -/
def jsTrunc (q : Rat) : Int :=
  if 0 ≤ q then Rat.floor q else Rat.ceil q

def jsMod (a b : Rat) : Rat :=
  a - b * ((jsTrunc (a / b) : Int) : Rat)

/-- JS `Math.round`: round half toward positive infinity. -/
def jsRound (q : Rat) : Int :=
  Rat.floor (q + 1 / 2)

def pad2 (i : Int) : String := jsPadStart (toString i) 2 '0'

def pad3 (i : Int) : String := jsPadStart (toString i) 3 '0'

/-- Function `youtubeTimestamp` (utils.ts): `"M:SS"`, or `"H:MM:SS"` when at least
an hour. -/
def youtubeTimestamp (seconds : Rat) : String :=
  let h := Rat.floor (seconds / 3600)
  let m := Rat.floor (jsMod seconds 3600 / 60)
  let s := Rat.floor (jsMod seconds 60)
  if h > 0 then toString h ++ ":" ++ pad2 m ++ ":" ++ pad2 s
  else toString m ++ ":" ++ pad2 s

/-- Function `srtTimestamp` (utils.ts): `"HH:MM:SS,mmm"`. -/
def srtTimestamp (seconds : Rat) : String :=
  let h := Rat.floor (seconds / 3600)
  let m := Rat.floor (jsMod seconds 3600 / 60)
  let s := Rat.floor (jsMod seconds 60)
  let ms := jsRound (jsMod seconds 1 * 1000)
  pad2 h ++ ":" ++ pad2 m ++ ":" ++ pad2 s ++ "," ++ pad3 ms

/-! ## outputs.ts: timeline, chapters, captions -/

/-- Type `TimelineEntry` (outputs.ts). -/
structure TimelineEntry where
  index : Nat
  title : String
  start_seconds : Rat
  duration_seconds : Rat
  end_seconds : Rat
deriving DecidableEq, Repr

/-- Type `TimelineData` (outputs.ts). -/
structure TimelineData where
  segments : List TimelineEntry
  total_duration_seconds : Rat
  has_durations : Bool
deriving DecidableEq, Repr

/-- The cursor fold of `buildTimeline`: each entry starts at the running
cumulative offset and ends `duration` later. -/
def timelineEntries : List RenderResult → Rat → List TimelineEntry
  | [], _ => []
  | r :: rest, cursor =>
    ⟨r.segment.index, r.segment.title, cursor, r.duration, cursor + r.duration⟩ ::
      timelineEntries rest (cursor + r.duration)

/-- The final cursor value, the reported total duration. -/
def timelineTotal : List RenderResult → Rat → Rat
  | [], cursor => cursor
  | r :: rest, cursor => timelineTotal rest (cursor + r.duration)

/-- Function `buildTimeline` (outputs.ts): pure fold with cumulative offsets
starting at 0; `has_durations` iff every result has a positive duration. -/
def buildTimeline (results : List RenderResult) : TimelineData :=
  { segments := timelineEntries results 0,
    total_duration_seconds := timelineTotal results 0,
    has_durations := results.all (fun r => decide (r.duration > 0)) }

/-- Function `buildChapters` (outputs.ts): one `"<timestamp> <title>"` line per
entry, `none` when durations are unreliable. -/
def buildChapters (timeline : TimelineData) : Option String :=
  if timeline.has_durations = false then none
  else
    some (String.intercalate "\n"
      (timeline.segments.map (fun s => youtubeTimestamp s.start_seconds ++ " " ++ s.title)))

/-- The per-block caption text: the matching segment's text (empty when
the index is out of range), truncated at 200 characters with an ellipsis. -/
def captionText (segments : List Segment) (i : Nat) : String :=
  let segText := ((segments.get? i).map Segment.text).getD ""
  if segText.length > 200 then segText.take 197 ++ "..." else segText

/-- Function `buildCaptionsSrt` (outputs.ts): numbered SRT blocks joined by blank
lines, `none` when durations are unreliable. -/
def buildCaptionsSrt (timeline : TimelineData) (segments : List Segment) :
    Option String :=
  if timeline.has_durations = false then none
  else
    some (String.intercalate "\n\n"
      (timeline.segments.enum.map (fun p =>
        toString (p.1 + 1) ++ "\n" ++
        srtTimestamp p.2.start_seconds ++ " --> " ++ srtTimestamp p.2.end_seconds ++
        "\n" ++ captionText segments p.1)))

/-! ## Render-loop characterization -/

/-- The duration the TTS response reports for a miss result (meaningful
only when the call succeeds). -/
def respDur (env : Env) (opts : RenderOptions) (r : RenderResult) : Rat :=
  match env.tts (reqOf opts r) with
  | Except.ok resp => resp.duration_seconds
  | Except.error _ => 0

/-- The cache entry the loop records for a miss: new hash, computed file
name, and the response's self-reported duration (render.ts lines 160-164). -/
def missEntry (env : Env) (opts : RenderOptions) (r : RenderResult) : CacheEntry :=
  ⟨r.segment.hash, r.fileName, respDur env opts r⟩

/-- The duration a freshly rendered result ends up with: the probed
duration, falling back to the response estimate (render.ts line 157). -/
def finalDur (env : Env) (opts : RenderOptions) (r : RenderResult) : Rat :=
  (env.probe r.filePath).getD (respDur env opts r)

/-- How the loop rewrites one phase-one result: hits pass through, a
miss gets its rendered duration. -/
def updateFn (env : Env) (opts : RenderOptions) (r : RenderResult) : RenderResult :=
  if r.cached then r else { r with duration := finalDur env opts r }

/-- Fold the cache updates of a list of miss results over a cache. -/
def applyUpdates (env : Env) (opts : RenderOptions) (c : CacheMap)
    (misses : List RenderResult) : CacheMap :=
  misses.foldl (fun m r => m.set (segmentCacheKey r.segment) (missEntry env opts r)) c

/-- Every miss in the list gets a successful TTS response. -/
def allFreshOk (env : Env) (opts : RenderOptions) (rs : List RenderResult) : Prop :=
  ∀ r ∈ rs, r.cached = false → (env.tts (reqOf opts r)).isOk = true

theorem renderLoop_ok (env : Env) (opts : RenderOptions) :
    ∀ (rs : List RenderResult) (st : LoopState), allFreshOk env opts rs →
    renderLoop env opts rs st =
      (⟨applyUpdates env opts st.cache (rs.filter (fun r => !r.cached)),
        st.written ++ (rs.filter (fun r => !r.cached)).map RenderResult.filePath,
        st.calls ++ (rs.filter (fun r => !r.cached)).map RenderResult.segment⟩,
       Except.ok (rs.map (updateFn env opts))) := by
  intro rs
  induction rs with
  | nil =>
    intro st _
    cases st
    simp [renderLoop, applyUpdates]
  | cons r rest ih =>
    intro st hok
    have hrest : allFreshOk env opts rest := fun x hx => hok x (List.mem_cons_of_mem _ hx)
    by_cases hc : r.cached = true
    · rw [renderLoop, if_pos hc]
      rw [ih st hrest]
      simp [hc, updateFn, List.filter_cons, Except.map]
    · have hc' : r.cached = false := by simpa using hc
      have hts : (env.tts (reqOf opts r)).isOk = true := hok r (List.mem_cons_self _ _) hc'
      obtain ⟨resp, hresp⟩ : ∃ resp, env.tts (reqOf opts r) = Except.ok resp := by
        cases htt : env.tts (reqOf opts r) with
        | error e => rw [htt] at hts; simp [Except.isOk, Except.toBool] at hts
        | ok resp => exact ⟨resp, rfl⟩
      rw [renderLoop]
      rw [hc']
      simp only [Bool.false_eq_true, if_false, hresp]
      rw [ih _ hrest]
      simp [List.filter_cons, hc', applyUpdates, missEntry, respDur, hresp,
        updateFn, finalDur, Except.map, List.append_assoc]

theorem renderLoop_isOk_allFreshOk (env : Env) (opts : RenderOptions) :
    ∀ (rs : List RenderResult) (st : LoopState),
    (renderLoop env opts rs st).2.isOk = true → allFreshOk env opts rs := by
  intro rs
  induction rs with
  | nil => intro st _; intro x hx; cases hx
  | cons r rest ih =>
    intro st hok
    by_cases hc : r.cached = true
    · rw [renderLoop, if_pos hc] at hok
      have h2 : (renderLoop env opts rest st).2.isOk = true := by
        cases hres : (renderLoop env opts rest st).2 with
        | error e =>
          rw [hres] at hok
          simp [Except.isOk, Except.toBool, Except.map] at hok
        | ok out => simp [Except.isOk, Except.toBool]
      intro x hx hxc
      rcases List.mem_cons.mp hx with hx1 | hx2
      · subst hx1; rw [hc] at hxc; cases hxc
      · exact ih st h2 x hx2 hxc
    · have hc' : r.cached = false := by simpa using hc
      rw [renderLoop, hc'] at hok
      simp only [Bool.false_eq_true, if_false] at hok
      cases htt : env.tts (reqOf opts r) with
      | error e =>
        rw [htt] at hok
        simp [Except.isOk, Except.toBool] at hok
      | ok resp =>
        rw [htt] at hok
        simp only at hok
        have h2 := hok
        intro x hx hxc
        rcases List.mem_cons.mp hx with hx1 | hx2
        · subst hx1; rw [htt]; simp [Except.isOk, Except.toBool]
        · refine ih ⟨st.cache.set (segmentCacheKey r.segment)
              ⟨r.segment.hash, r.fileName, resp.duration_seconds⟩,
              st.written ++ [r.filePath], st.calls ++ [r.segment]⟩ ?_ x hx2 hxc
          cases hres : (renderLoop env opts rest
              ⟨st.cache.set (segmentCacheKey r.segment)
                 ⟨r.segment.hash, r.fileName, resp.duration_seconds⟩,
                st.written ++ [r.filePath], st.calls ++ [r.segment]⟩).2 with
          | error e =>
            rw [hres] at h2
            simp [Except.isOk, Except.toBool, Except.map] at h2
          | ok out => simp [Except.isOk, Except.toBool]

theorem renderLoop_fail (env : Env) (opts : RenderOptions)
    (y : RenderResult) (e : String)
    (hyc : y.cached = false) (hye : env.tts (reqOf opts y) = Except.error e) :
    ∀ (xs : List RenderResult) (zs : List RenderResult) (st : LoopState),
    allFreshOk env opts xs →
    renderLoop env opts (xs ++ y :: zs) st =
      (⟨applyUpdates env opts st.cache (xs.filter (fun r => !r.cached)),
        st.written ++ (xs.filter (fun r => !r.cached)).map RenderResult.filePath,
        st.calls ++ (xs.filter (fun r => !r.cached)).map RenderResult.segment
          ++ [y.segment]⟩,
       Except.error (renderErrMsg y.segment.title e)) := by
  intro xs
  induction xs with
  | nil =>
    intro zs st _
    rw [List.nil_append, renderLoop, hyc]
    simp only [Bool.false_eq_true, if_false, hye]
    cases st
    simp [applyUpdates]
  | cons r rest ih =>
    intro zs st hok
    have hrest : allFreshOk env opts rest := fun x hx => hok x (List.mem_cons_of_mem _ hx)
    by_cases hc : r.cached = true
    · rw [List.cons_append, renderLoop, if_pos hc]
      rw [ih zs st hrest]
      simp [List.filter_cons, hc, Except.map]
    · have hc' : r.cached = false := by simpa using hc
      have hts : (env.tts (reqOf opts r)).isOk = true := hok r (List.mem_cons_self _ _) hc'
      obtain ⟨resp, hresp⟩ : ∃ resp, env.tts (reqOf opts r) = Except.ok resp := by
        cases htt : env.tts (reqOf opts r) with
        | error e2 => rw [htt] at hts; simp [Except.isOk, Except.toBool] at hts
        | ok resp => exact ⟨resp, rfl⟩
      rw [List.cons_append, renderLoop, hc']
      simp only [Bool.false_eq_true, if_false, hresp]
      rw [ih zs _ hrest]
      simp [List.filter_cons, hc', applyUpdates, missEntry, respDur, hresp,
        Except.map, List.append_assoc]

/-- The miss results of phase one, in order. -/
def missResults (segs : List Segment) (env : Env) (opts : RenderOptions) :
    List RenderResult :=
  (preResults segs env opts).filter (fun r => !r.cached)

theorem renderSegments_eq_of_allFreshOk (segs : List Segment) (env : Env)
    (opts : RenderOptions) (h : allFreshOk env opts (preResults segs env opts)) :
    renderSegments segs env opts =
      ⟨Except.ok ((preResults segs env opts).map (updateFn env opts)),
       applyUpdates env opts (startCache env opts) (missResults segs env opts),
       (missResults segs env opts).map RenderResult.filePath,
       (missResults segs env opts).map RenderResult.segment⟩ := by
  unfold renderSegments missResults
  rw [renderLoop_ok env opts _ ⟨startCache env opts, [], []⟩ h]
  simp

theorem passOk_allFreshOk (segs : List Segment) (env : Env) (opts : RenderOptions)
    (h : passOk segs env opts = true) :
    allFreshOk env opts (preResults segs env opts) := by
  apply renderLoop_isOk_allFreshOk env opts (preResults segs env opts)
    ⟨startCache env opts, [], []⟩
  simpa [passOk, renderSegments] using h

theorem checkSegment_segment (opts : RenderOptions) (env : Env) (cache : CacheMap)
    (s : Segment) : (checkSegment opts env cache s).segment = s := by
  unfold checkSegment
  split <;> rfl

theorem checkSegment_cached_iff (opts : RenderOptions) (env : Env) (cache : CacheMap)
    (s : Segment) :
    (checkSegment opts env cache s).cached = true ↔
      (opts.force = false ∧ ∃ e, cache (segmentCacheKey s) = some e ∧
        e.hash = s.hash ∧ e.file = segmentFileName s ∧
        env.fileExists (segmentFilePath opts s) = true) := by
  unfold checkSegment
  split
  · rename_i hcond
    simp only [true_iff]
    obtain ⟨hf, hh, hfi, hex⟩ := hcond
    obtain ⟨e, he, heh⟩ := Option.map_eq_some'.mp hh
    refine ⟨hf, e, he, heh, ?_, hex⟩
    rw [he] at hfi
    simpa using hfi
  · rename_i hcond
    simp only [Bool.false_eq_true, false_iff]
    intro ⟨hf, e, he, hh, hfi, hex⟩
    exact hcond ⟨hf, by rw [he, Option.map_some', hh],
      by rw [he, Option.map_some', hfi], hex⟩

theorem checkSegment_cached_duration (opts : RenderOptions) (env : Env)
    (cache : CacheMap) (s : Segment)
    (h : (checkSegment opts env cache s).cached = true) :
    ∃ e, cache (segmentCacheKey s) = some e ∧
      (checkSegment opts env cache s).duration = e.duration := by
  unfold checkSegment at *
  split at h
  · rename_i hcond
    obtain ⟨hf, hh, hfi, hex⟩ := hcond
    obtain ⟨e, he, _⟩ := Option.map_eq_some'.mp hh
    refine ⟨e, he, ?_⟩
    rw [if_pos ⟨hf, hh, hfi, hex⟩]
    simp [he]
  · simp at h

theorem updateFn_cached (env : Env) (opts : RenderOptions) (r : RenderResult) :
    (updateFn env opts r).cached = r.cached := by
  unfold updateFn; split <;> simp_all

theorem updateFn_of_cached (env : Env) (opts : RenderOptions) (r : RenderResult)
    (h : r.cached = true) : updateFn env opts r = r := by
  unfold updateFn; rw [h]; simp

theorem updateFn_segment (env : Env) (opts : RenderOptions) (r : RenderResult) :
    (updateFn env opts r).segment = r.segment := by
  unfold updateFn; split <;> rfl

theorem resultsOf_eq (segs : List Segment) (env : Env) (opts : RenderOptions)
    (h : allFreshOk env opts (preResults segs env opts)) :
    resultsOf segs env opts =
      (segs.map (checkSegment opts env (startCache env opts))).map (updateFn env opts) := by
  unfold resultsOf
  rw [renderSegments_eq_of_allFreshOk segs env opts h]
  rfl

theorem ttsCallsOf_eq (segs : List Segment) (env : Env) (opts : RenderOptions)
    (h : allFreshOk env opts (preResults segs env opts)) :
    ttsCallsOf segs env opts = (missResults segs env opts).map RenderResult.segment := by
  unfold ttsCallsOf
  rw [renderSegments_eq_of_allFreshOk segs env opts h]

theorem getElem_resultsOf (segs : List Segment) (env : Env) (opts : RenderOptions)
    (h : allFreshOk env opts (preResults segs env opts))
    (i : Nat) (hi : i < segs.length) (hi2 : i < (resultsOf segs env opts).length) :
    (resultsOf segs env opts)[i] =
      updateFn env opts (checkSegment opts env (startCache env opts) segs[i]) := by
  rw [List.getElem_of_eq (resultsOf_eq segs env opts h) hi2]
  simp

/-- A segment whose phase-one check is a hit is never sent to the TTS
collaborator during the pass. -/
theorem hit_not_called (segs : List Segment) (env : Env) (opts : RenderOptions)
    (h : allFreshOk env opts (preResults segs env opts)) (s : Segment)
    (hs : (checkSegment opts env (startCache env opts) s).cached = true) :
    s ∉ ttsCallsOf segs env opts := by
  rw [ttsCallsOf_eq segs env opts h]
  intro hmem
  obtain ⟨r, hrmem, hrseg⟩ := List.mem_map.mp hmem
  have hrf := List.mem_filter.mp hrmem
  obtain ⟨s2, _, hs2⟩ := List.mem_map.mp hrf.1
  have hseg : s2 = s := by rw [← hrseg, ← hs2, checkSegment_segment]
  have : r.cached = false := by simpa using hrf.2
  rw [← hs2, hseg] at this
  rw [hs] at this
  cases this

/--
C1: for every call to `renderSegments` and every segment in the input
list, the result for that segment has `cached = true` iff `force` is off,
the loaded cache manifest holds an entry under the segment's key whose
stored hash equals the segment's hash and whose stored file name equals
the computed file name, and the computed file path exists on disk; and a
hit's duration is the cached entry's duration and no TTS synthesis call
is made for that segment.
-/
theorem C1_cache_hit_iff (segs : List Segment) (env : Env) (opts : RenderOptions)
    (hok : passOk segs env opts = true)
    (i : Nat) (hi : i < segs.length) (hi2 : i < (resultsOf segs env opts).length) :
    ((resultsOf segs env opts)[i].cached = true ↔
      (opts.force = false ∧ ∃ e, env.diskCache (segmentCacheKey segs[i]) = some e ∧
        e.hash = segs[i].hash ∧ e.file = segmentFileName segs[i] ∧
        env.fileExists (segmentFilePath opts segs[i]) = true)) ∧
    ((resultsOf segs env opts)[i].cached = true →
      (∃ e, env.diskCache (segmentCacheKey segs[i]) = some e ∧
        (resultsOf segs env opts)[i].duration = e.duration) ∧
      segs[i] ∉ ttsCallsOf segs env opts) := by
  have hfresh := passOk_allFreshOk segs env opts hok
  have hget := getElem_resultsOf segs env opts hfresh i hi hi2
  have hcached : (resultsOf segs env opts)[i].cached =
      (checkSegment opts env (startCache env opts) segs[i]).cached := by
    rw [hget, updateFn_cached]
  by_cases hforce : opts.force = true
  · have hstart : startCache env opts = CacheMap.empty := by
      unfold startCache; rw [if_pos hforce]
    have hmiss : (checkSegment opts env (startCache env opts) segs[i]).cached = false := by
      by_contra hcon
      have h1 : (checkSegment opts env (startCache env opts) segs[i]).cached = true := by
        simpa using hcon
      have h2 := (checkSegment_cached_iff opts env (startCache env opts) segs[i]).mp h1
      rw [h2.1] at hforce
      cases hforce
    constructor
    · rw [hcached, hmiss]
      simp only [Bool.false_eq_true, false_iff]
      intro ⟨hf, _⟩
      rw [hf] at hforce
      cases hforce
    · intro hcon
      rw [hcached, hmiss] at hcon
      cases hcon
  · have hforce' : opts.force = false := by simpa using hforce
    have hstart : startCache env opts = env.diskCache := by
      unfold startCache; rw [if_neg (by simp [hforce'])]
    constructor
    · rw [hcached, hstart] at *
      exact checkSegment_cached_iff opts env env.diskCache segs[i]
    · intro hc
      have hc2 : (checkSegment opts env (startCache env opts) segs[i]).cached = true := by
        rw [← hcached]; exact hc
      constructor
      · obtain ⟨e, he, hd⟩ :=
          checkSegment_cached_duration opts env (startCache env opts) segs[i] hc2
        refine ⟨e, by rw [← hstart]; exact he, ?_⟩
        rw [hget, updateFn_of_cached _ _ _ hc2]
        exact hd
      · exact hit_not_called segs env opts hfresh segs[i] hc2

theorem checkSegment_fileName (opts : RenderOptions) (env : Env) (cache : CacheMap)
    (s : Segment) : (checkSegment opts env cache s).fileName = segmentFileName s := by
  unfold checkSegment; split <;> rfl

theorem checkSegment_filePath (opts : RenderOptions) (env : Env) (cache : CacheMap)
    (s : Segment) : (checkSegment opts env cache s).filePath = segmentFilePath opts s := by
  unfold checkSegment; split <;> rfl

/-- The TTS request issued for a segment, as a function of the segment. -/
def reqOfSeg (opts : RenderOptions) (s : Segment) : TTSRequest :=
  ⟨s.text, opts.voiceId, "wav", opts.language⟩

theorem reqOf_checkSegment (opts : RenderOptions) (env : Env) (cache : CacheMap)
    (s : Segment) : reqOf opts (checkSegment opts env cache s) = reqOfSeg opts s := by
  unfold reqOf reqOfSeg
  rw [checkSegment_segment]

theorem CacheMap.set_same (m : CacheMap) (k : String) (v : CacheEntry) :
    m.set k v k = some v := by
  unfold CacheMap.set; simp

theorem CacheMap.set_other (m : CacheMap) (k q : String) (v : CacheEntry)
    (h : q ≠ k) : m.set k v q = m q := by
  unfold CacheMap.set; simp [h]

theorem applyUpdates_notmem (env : Env) (opts : RenderOptions) :
    ∀ (list : List RenderResult) (c : CacheMap) (k : String),
    (∀ r ∈ list, segmentCacheKey r.segment ≠ k) →
    applyUpdates env opts c list k = c k := by
  intro list
  induction list with
  | nil => intro c k _; rfl
  | cons x xs ih =>
    intro c k h
    unfold applyUpdates at *
    simp only [List.foldl_cons]
    rw [ih _ k (fun r hr => h r (List.mem_cons_of_mem _ hr))]
    exact CacheMap.set_other _ _ _ _ (fun he => h x (List.mem_cons_self _ _) he.symm)

theorem applyUpdates_mem (env : Env) (opts : RenderOptions) :
    ∀ (list : List RenderResult) (c : CacheMap) (r : RenderResult),
    (list.map (fun x => segmentCacheKey x.segment)).Nodup → r ∈ list →
    applyUpdates env opts c list (segmentCacheKey r.segment) =
      some (missEntry env opts r) := by
  intro list
  induction list with
  | nil => intro c r _ hr; cases hr
  | cons x xs ih =>
    intro c r hnd hr
    have hnd2 := hnd
    rw [List.map_cons, List.nodup_cons] at hnd2
    rcases List.mem_cons.mp hr with h1 | h2
    · subst h1
      unfold applyUpdates
      simp only [List.foldl_cons]
      have hnot : ∀ q ∈ xs, segmentCacheKey q.segment ≠ segmentCacheKey r.segment := by
        intro q hq he
        exact hnd2.1 (he ▸ List.mem_map_of_mem _ hq)
      have := applyUpdates_notmem env opts xs
        (c.set (segmentCacheKey r.segment) (missEntry env opts r))
        (segmentCacheKey r.segment) hnot
      unfold applyUpdates at this
      rw [this]
      exact CacheMap.set_same _ _ _
    · unfold applyUpdates at *
      simp only [List.foldl_cons]
      exact ih _ r hnd2.2 h2

theorem applyUpdates_isSome (env : Env) (opts : RenderOptions) :
    ∀ (list : List RenderResult) (c : CacheMap) (k : String),
    (c k).isSome = true → (applyUpdates env opts c list k).isSome = true := by
  intro list
  induction list with
  | nil => intro c k h; exact h
  | cons x xs ih =>
    intro c k h
    unfold applyUpdates at *
    simp only [List.foldl_cons]
    apply ih
    by_cases hk : k = segmentCacheKey x.segment
    · subst hk; rw [CacheMap.set_same]; rfl
    · rw [CacheMap.set_other _ _ _ _ hk]; exact h

theorem manifestAfter_eq_of_allFreshOk (segs : List Segment) (env : Env)
    (opts : RenderOptions) (h : allFreshOk env opts (preResults segs env opts)) :
    manifestAfter segs env opts =
      applyUpdates env opts (startCache env opts) (missResults segs env opts) := by
  unfold manifestAfter
  rw [renderSegments_eq_of_allFreshOk segs env opts h]

/-- The keys of phase-one results are the keys of the input segments. -/
theorem preResults_keys (segs : List Segment) (env : Env) (opts : RenderOptions) :
    (preResults segs env opts).map (fun r => segmentCacheKey r.segment) =
      segs.map segmentCacheKey := by
  unfold preResults
  rw [List.map_map]
  apply List.map_congr_left
  intro s _
  simp [Function.comp, checkSegment_segment]

theorem missResults_keys_nodup (segs : List Segment) (env : Env) (opts : RenderOptions)
    (hnd : (segs.map segmentCacheKey).Nodup) :
    ((missResults segs env opts).map (fun r => segmentCacheKey r.segment)).Nodup := by
  have h1 : List.Sublist
      ((missResults segs env opts).map (fun r => segmentCacheKey r.segment))
      ((preResults segs env opts).map (fun r => segmentCacheKey r.segment)) :=
    List.Sublist.map _ (List.filter_sublist _)
  rw [preResults_keys] at h1
  exact hnd.sublist h1

/--
C2 (amended): on a cache miss whose synthesis succeeds, the cache entry
written under the segment's key records the new hash, the computed file
name, and the TTS response's self-reported duration estimate — not the
result's duration; the returned result's duration is the probed duration
when probing succeeds, with that same estimate as fallback, so the two
agree only when probing fails or reports the estimate.
-/
theorem C2_miss_cache_entry (segs : List Segment) (env : Env) (opts : RenderOptions)
    (hnd : (segs.map segmentCacheKey).Nodup)
    (hok : passOk segs env opts = true)
    (i : Nat) (hi : i < segs.length) (hi2 : i < (resultsOf segs env opts).length)
    (hmiss : (resultsOf segs env opts)[i].cached = false) :
    ∃ resp, env.tts (reqOfSeg opts segs[i]) = Except.ok resp ∧
      manifestAfter segs env opts (segmentCacheKey segs[i]) =
        some ⟨segs[i].hash, segmentFileName segs[i], resp.duration_seconds⟩ ∧
      (resultsOf segs env opts)[i].duration =
        (env.probe (segmentFilePath opts segs[i])).getD resp.duration_seconds := by
  have hfresh := passOk_allFreshOk segs env opts hok
  have hget := getElem_resultsOf segs env opts hfresh i hi hi2
  have hprei : checkSegment opts env (startCache env opts) segs[i] ∈ preResults segs env opts := by
    unfold preResults
    exact List.mem_map_of_mem _ (List.getElem_mem hi)
  have hcmiss : (checkSegment opts env (startCache env opts) segs[i]).cached = false := by
    rw [hget, updateFn_cached] at hmiss
    exact hmiss
  have hmem : checkSegment opts env (startCache env opts) segs[i] ∈ missResults segs env opts := by
    unfold missResults
    rw [List.mem_filter]
    exact ⟨hprei, by rw [hcmiss]; rfl⟩
  have hts := hfresh _ hprei hcmiss
  obtain ⟨resp, hresp⟩ : ∃ resp,
      env.tts (reqOf opts (checkSegment opts env (startCache env opts) segs[i])) =
        Except.ok resp := by
    cases htt : env.tts (reqOf opts (checkSegment opts env (startCache env opts) segs[i])) with
    | error e => rw [htt] at hts; simp [Except.isOk, Except.toBool] at hts
    | ok resp => exact ⟨resp, rfl⟩
  refine ⟨resp, by rw [← reqOf_checkSegment opts env (startCache env opts) segs[i]]; exact hresp, ?_, ?_⟩
  · rw [manifestAfter_eq_of_allFreshOk segs env opts hfresh]
    have hkey : segmentCacheKey ((checkSegment opts env (startCache env opts) segs[i]).segment) =
        segmentCacheKey segs[i] := by rw [checkSegment_segment]
    have := applyUpdates_mem env opts (missResults segs env opts)
      (startCache env opts) _ (missResults_keys_nodup segs env opts hnd) hmem
    rw [hkey] at this
    rw [this]
    unfold missEntry respDur
    rw [hresp, checkSegment_segment, checkSegment_fileName]
  · rw [hget]
    unfold updateFn
    rw [hcmiss]
    simp only [Bool.false_eq_true, if_false]
    unfold finalDur respDur
    rw [hresp, checkSegment_filePath]

/--
C3: when TTS synthesis fails for the first failing miss segment, the
pass propagates an error naming that segment's title, synthesizes
nothing past it (the call trace stops at that segment and only earlier
misses were written), and the on-disk cache manifest is left unchanged —
the updated in-memory cache is never persisted.
-/
theorem C3_synthesis_failure (segs : List Segment) (env : Env) (opts : RenderOptions)
    (i : Nat) (hi : i < segs.length) (hi2 : i < (preResults segs env opts).length)
    (e : String)
    (hbefore : allFreshOk env opts ((preResults segs env opts).take i))
    (hmiss : (preResults segs env opts)[i].cached = false)
    (hfail : env.tts (reqOfSeg opts segs[i]) = Except.error e) :
    (renderSegments segs env opts).results =
      Except.error (renderErrMsg segs[i].title e) ∧
    ttsCallsOf segs env opts =
      (((preResults segs env opts).take (i + 1)).filter
        (fun r => !r.cached)).map RenderResult.segment ∧
    writtenOf segs env opts =
      (((preResults segs env opts).take i).filter
        (fun r => !r.cached)).map RenderResult.filePath ∧
    (∀ k, manifestAfter segs env opts k = env.diskCache k) ∧
    (∀ s ∈ ttsCallsOf segs env opts, s ∈ segs.take (i + 1)) ∧
    (∀ p ∈ writtenOf segs env opts, ∃ s ∈ segs.take i, p = segmentFilePath opts s) := by
  have hpre_i : (preResults segs env opts)[i] =
      checkSegment opts env (startCache env opts) segs[i] := by
    unfold preResults
    simp
  have hfail2 : env.tts (reqOf opts ((preResults segs env opts)[i])) = Except.error e := by
    rw [hpre_i, reqOf_checkSegment]
    exact hfail
  have hsplit : preResults segs env opts =
      (preResults segs env opts).take i ++
        (preResults segs env opts)[i] :: (preResults segs env opts).drop (i + 1) := by
    conv_lhs => rw [← List.take_append_drop i (preResults segs env opts)]
    rw [List.drop_eq_getElem_cons hi2]
  have hloop := renderLoop_fail env opts ((preResults segs env opts)[i]) e hmiss hfail2
    ((preResults segs env opts).take i) ((preResults segs env opts).drop (i + 1))
    ⟨startCache env opts, [], []⟩ hbefore
  have hrs : renderSegments segs env opts =
      ⟨Except.error (renderErrMsg ((preResults segs env opts)[i]).segment.title e),
        applyUpdates env opts (startCache env opts)
          (((preResults segs env opts).take i).filter (fun r => !r.cached)),
        (((preResults segs env opts).take i).filter
          (fun r => !r.cached)).map RenderResult.filePath,
        ((((preResults segs env opts).take i).filter
          (fun r => !r.cached)).map RenderResult.segment) ++
          [((preResults segs env opts)[i]).segment]⟩ := by
    unfold renderSegments
    conv_lhs => rw [hsplit]
    rw [hloop]
    rfl
  have htitle : ((preResults segs env opts)[i]).segment = segs[i] := by
    rw [hpre_i, checkSegment_segment]
  have htake : (preResults segs env opts).take (i + 1) =
      (preResults segs env opts).take i ++ [(preResults segs env opts)[i]] := by
    rw [List.take_succ]
    simp [List.getElem?_eq_getElem hi2]
  have hcalls : ttsCallsOf segs env opts =
      (((preResults segs env opts).take (i + 1)).filter
        (fun r => !r.cached)).map RenderResult.segment := by
    unfold ttsCallsOf
    rw [hrs, htake, List.filter_append, List.map_append]
    simp [List.filter_cons, hmiss]
  have hwritten : writtenOf segs env opts =
      (((preResults segs env opts).take i).filter
        (fun r => !r.cached)).map RenderResult.filePath := by
    unfold writtenOf
    rw [hrs]
  refine ⟨?_, hcalls, hwritten, ?_, ?_, ?_⟩
  · rw [hrs, htitle]
  · intro k
    unfold manifestAfter
    rw [hrs]
  · intro s hs
    rw [hcalls] at hs
    obtain ⟨r, hr, hrseg⟩ := List.mem_map.mp hs
    have hr2 : r ∈ (preResults segs env opts).take (i + 1) := List.mem_of_mem_filter hr
    have hr3 : r ∈ (segs.take (i + 1)).map (checkSegment opts env (startCache env opts)) := by
      unfold preResults at hr2
      rw [← List.map_take] at hr2
      exact hr2
    obtain ⟨s2, hs2, hs2e⟩ := List.mem_map.mp hr3
    rw [← hrseg, ← hs2e, checkSegment_segment]
    exact hs2
  · intro p hp
    rw [hwritten] at hp
    obtain ⟨r, hr, hrp⟩ := List.mem_map.mp hp
    have hr2 : r ∈ (preResults segs env opts).take i := List.mem_of_mem_filter hr
    have hr3 : r ∈ (segs.take i).map (checkSegment opts env (startCache env opts)) := by
      unfold preResults at hr2
      rw [← List.map_take] at hr2
      exact hr2
    obtain ⟨s2, hs2, hs2e⟩ := List.mem_map.mp hr3
    exact ⟨s2, hs2, by rw [← hrp, ← hs2e, checkSegment_filePath]⟩

/--
C5 (amended): when `force` is off, the saved manifest's key set never
shrinks — every key present in the loaded on-disk manifest is still
present after the pass, unchanged or overwritten (on a failed pass the
file is untouched).  With `force` on, the pass starts from an empty
cache, so the saved manifest holds only the current segments' keys.
-/
theorem C5_no_key_loss_without_force (segs : List Segment) (env : Env)
    (opts : RenderOptions) (hforce : opts.force = false) (k : String)
    (hk : (env.diskCache k).isSome = true) :
    (manifestAfter segs env opts k).isSome = true := by
  unfold manifestAfter
  cases hres : (renderSegments segs env opts).results with
  | error e => exact hk
  | ok rs =>
    have hok : passOk segs env opts = true := by
      unfold passOk
      rw [hres]
      rfl
    have hfresh := passOk_allFreshOk segs env opts hok
    have heq := renderSegments_eq_of_allFreshOk segs env opts hfresh
    rw [heq]
    show ((applyUpdates env opts (startCache env opts) (missResults segs env opts)) k).isSome = true
    apply applyUpdates_isSome
    unfold startCache
    rw [if_neg (by simp [hforce])]
    exact hk

/-- Under distinct keys, a segment whose phase-one check hits has a key
that no miss result carries. -/
theorem hit_key_not_miss_key (segs : List Segment) (env : Env) (opts : RenderOptions)
    (hnd : (segs.map segmentCacheKey).Nodup)
    (i : Nat) (hi : i < segs.length)
    (hhit : (checkSegment opts env (startCache env opts) segs[i]).cached = true) :
    ∀ r ∈ missResults segs env opts, segmentCacheKey r.segment ≠ segmentCacheKey segs[i] := by
  intro r hr he
  have hrf := List.mem_filter.mp hr
  obtain ⟨s2, hs2, hs2e⟩ := List.mem_map.mp hrf.1
  obtain ⟨j, hj, hje⟩ := List.mem_iff_getElem.mp hs2
  have hj2 : j < (segs.map segmentCacheKey).length := by simpa using hj
  have hi2 : i < (segs.map segmentCacheKey).length := by simpa using hi
  have hkeys : (segs.map segmentCacheKey)[j] = (segs.map segmentCacheKey)[i] := by
    simp only [List.getElem_map]
    rw [hje]
    rw [← hs2e, checkSegment_segment] at he
    exact he
  have hij : j = i := (List.Nodup.getElem_inj_iff hnd).mp hkeys
  have hs2i : s2 = segs[i] := by
    subst hij
    exact hje.symm
  have hrc : r.cached = false := by simpa using hrf.2
  rw [← hs2e, hs2i, hhit] at hrc
  cases hrc

/--
C9: in a successful `force = false` pass over segments with distinct
keys, the saved manifest agrees with the loaded one on every key that no
miss segment owns — in particular on every hit segment's key, so cache
hits never modify their own entries and only miss keys are written.
-/
theorem C9_hits_leave_entries_unchanged (segs : List Segment) (env : Env)
    (opts : RenderOptions) (hforce : opts.force = false)
    (hnd : (segs.map segmentCacheKey).Nodup)
    (hok : passOk segs env opts = true) :
    (∀ k, (∀ r ∈ missResults segs env opts, segmentCacheKey r.segment ≠ k) →
      manifestAfter segs env opts k = env.diskCache k) ∧
    (∀ i, ∀ hi : i < segs.length, ∀ hi2 : i < (resultsOf segs env opts).length,
      (resultsOf segs env opts)[i].cached = true →
      manifestAfter segs env opts (segmentCacheKey segs[i]) =
        env.diskCache (segmentCacheKey segs[i])) := by
  have hfresh := passOk_allFreshOk segs env opts hok
  have heq := manifestAfter_eq_of_allFreshOk segs env opts hfresh
  have hstart : startCache env opts = env.diskCache := by
    unfold startCache
    rw [if_neg (by simp [hforce])]
  constructor
  · intro k hknot
    rw [heq, applyUpdates_notmem env opts _ _ k hknot, hstart]
  · intro i hi hi2 hcached
    have hhit : (checkSegment opts env (startCache env opts) segs[i]).cached = true := by
      rw [getElem_resultsOf segs env opts hfresh i hi hi2, updateFn_cached] at hcached
      exact hcached
    rw [heq, applyUpdates_notmem env opts _ _ _
      (hit_key_not_miss_key segs env opts hnd i hi hhit), hstart]

/-- The file system after a pass: the pre-pass files plus everything the
pass wrote. -/
def postFileExists (segs : List Segment) (env : Env) (opts : RenderOptions)
    (p : String) : Bool :=
  env.fileExists p || (writtenOf segs env opts).contains p

/--
C4: after a successful render pass over segments with pairwise-distinct
cache keys (the data model guarantees unique indices, hence distinct
keys), rendering the same unchanged segment list again against the saved
manifest and the post-pass file system with `force = false` succeeds
with every result cached, issues zero TTS synthesis calls, and reports a
cached count equal to the segment count.
-/
theorem C4_cache_roundtrip (segs : List Segment) (env : Env) (opts : RenderOptions)
    (tts2 : TTSRequest → Except String TTSResponse) (probe2 : String → Option Rat)
    (hnd : (segs.map segmentCacheKey).Nodup)
    (hok : passOk segs env opts = true) :
    ∀ env2 : Env, env2 = ⟨manifestAfter segs env opts, postFileExists segs env opts,
      tts2, probe2⟩ →
    ∀ opts2 : RenderOptions, opts2 = { opts with force := false } →
    passOk segs env2 opts2 = true ∧
    (∀ r ∈ resultsOf segs env2 opts2, r.cached = true) ∧
    ttsCallsOf segs env2 opts2 = [] ∧
    ((resultsOf segs env2 opts2).filter (fun r => r.cached)).length = segs.length := by
  intro env2 henv2 opts2 hopts2
  have hfresh := passOk_allFreshOk segs env opts hok
  have hmani := manifestAfter_eq_of_allFreshOk segs env opts hfresh
  have hwrit : writtenOf segs env opts = (missResults segs env opts).map RenderResult.filePath := by
    unfold writtenOf
    rw [renderSegments_eq_of_allFreshOk segs env opts hfresh]
  have hstart2 : startCache env2 opts2 = manifestAfter segs env opts := by
    unfold startCache
    rw [hopts2, henv2]
    simp
  have hfp2 : ∀ s, segmentFilePath opts2 s = segmentFilePath opts s := by
    intro s
    unfold segmentFilePath
    rw [hopts2]
  -- every segment hits in the second pass
  have hhit : ∀ i, ∀ hi : i < segs.length,
      (checkSegment opts2 env2 (startCache env2 opts2) segs[i]).cached = true := by
    intro i hi
    rw [checkSegment_cached_iff]
    refine ⟨by rw [hopts2], ?_⟩
    by_cases hc : (checkSegment opts env (startCache env opts) segs[i]).cached = true
    · -- a first-pass hit: its entry survives untouched and its file was on disk
      obtain ⟨hf1, e, he, heh, hef, hex⟩ :=
        (checkSegment_cached_iff opts env (startCache env opts) segs[i]).mp hc
      refine ⟨e, ?_, heh, hef, ?_⟩
      · rw [hstart2, hmani,
          applyUpdates_notmem env opts _ _ _ (hit_key_not_miss_key segs env opts hnd i hi hc)]
        exact he
      · rw [henv2]
        show postFileExists segs env opts (segmentFilePath opts2 segs[i]) = true
        unfold postFileExists
        rw [hfp2]
        rw [hex]
        rfl
    · -- a first-pass miss: the pass recorded a fresh entry and wrote the file
      have hc' : (checkSegment opts env (startCache env opts) segs[i]).cached = false := by
        simpa using hc
      have hmem : checkSegment opts env (startCache env opts) segs[i] ∈
          missResults segs env opts := by
        unfold missResults
        rw [List.mem_filter]
        refine ⟨?_, by rw [hc']; rfl⟩
        unfold preResults
        exact List.mem_map_of_mem _ (List.getElem_mem hi)
      have hkey : segmentCacheKey ((checkSegment opts env (startCache env opts) segs[i]).segment) =
          segmentCacheKey segs[i] := by rw [checkSegment_segment]
      have hlook := applyUpdates_mem env opts (missResults segs env opts)
        (startCache env opts) _ (missResults_keys_nodup segs env opts hnd) hmem
      rw [hkey] at hlook
      refine ⟨missEntry env opts (checkSegment opts env (startCache env opts) segs[i]),
        ?_, ?_, ?_, ?_⟩
      · rw [hstart2, hmani]
        exact hlook
      · unfold missEntry
        rw [checkSegment_segment]
      · unfold missEntry
        rw [checkSegment_fileName]
      · rw [henv2]
        show postFileExists segs env opts (segmentFilePath opts2 segs[i]) = true
        unfold postFileExists
        rw [hfp2]
        have hpmem : segmentFilePath opts segs[i] ∈ writtenOf segs env opts := by
          rw [hwrit]
          rw [← checkSegment_filePath opts env (startCache env opts) segs[i]]
          exact List.mem_map_of_mem _ hmem
        have hcont : (writtenOf segs env opts).contains (segmentFilePath opts segs[i]) = true := by
          simpa using hpmem
        rw [hcont]
        simp
  have hpre2 : ∀ r ∈ preResults segs env2 opts2, r.cached = true := by
    intro r hr
    obtain ⟨s2, hs2, hs2e⟩ := List.mem_map.mp hr
    obtain ⟨j, hj, hje⟩ := List.mem_iff_getElem.mp hs2
    rw [← hs2e, ← hje]
    exact hhit j hj
  have hfresh2 : allFreshOk env2 opts2 (preResults segs env2 opts2) := by
    intro r hr hc
    rw [hpre2 r hr] at hc
    cases hc
  have heq2 := renderSegments_eq_of_allFreshOk segs env2 opts2 hfresh2
  have hmiss2 : missResults segs env2 opts2 = [] := by
    unfold missResults
    apply List.filter_eq_nil_iff.mpr
    intro r hr
    rw [hpre2 r hr]
    simp
  have hres2 : resultsOf segs env2 opts2 = preResults segs env2 opts2 := by
    have h1 : resultsOf segs env2 opts2 =
        (preResults segs env2 opts2).map (updateFn env2 opts2) := by
      unfold resultsOf
      rw [heq2]
    rw [h1]
    rw [List.map_congr_left (fun r hr => updateFn_of_cached env2 opts2 r (hpre2 r hr))]
    exact List.map_id _
  refine ⟨?_, ?_, ?_, ?_⟩
  · unfold passOk
    rw [heq2]
    rfl
  · intro r hr
    rw [hres2] at hr
    exact hpre2 r hr
  · rw [ttsCallsOf_eq segs env2 opts2 hfresh2, hmiss2]
    rfl
  · rw [hres2]
    rw [List.filter_eq_self.mpr (fun r hr => hpre2 r hr)]
    unfold preResults
    rw [List.length_map]

/-! ## Chunk-concatenation algebra (claim C7) -/

/-- The concatenation of a chunk list's texts. -/
def concatTexts (chunks : List Chunk) : String :=
  String.join (chunks.map Chunk.text)

theorem join_cons (s : String) (l : List String) :
    String.join (s :: l) = s ++ String.join l := by
  rw [String.join_eq, String.join_eq]
  cases s with
  | mk d =>
    show String.mk ((List.map String.data (⟨d⟩ :: l)).flatten) =
      String.mk (d ++ (List.map String.data l).flatten)
    rw [List.map_cons, List.flatten_cons]

theorem join_append (a b : List String) :
    String.join (a ++ b) = String.join a ++ String.join b := by
  rw [String.join_eq, String.join_eq, String.join_eq]
  show String.mk _ = String.mk (_ ++ _)
  rw [List.map_append, List.flatten_append]

theorem str_append_empty (s : String) : s ++ "" = s := by
  cases s with
  | mk d =>
    show String.mk (d ++ []) = String.mk d
    rw [List.append_nil]

theorem str_empty_append (s : String) : "" ++ s = s := by
  cases s with
  | mk d => rfl

theorem stripWs_append (a b : String) :
    stripWs (a ++ b) = stripWs a ++ stripWs b := by
  unfold stripWs
  rw [String.data_append, List.filter_append]
  rfl

theorem filter_not_dropWhile (p : Char → Bool) (l : List Char) :
    (l.dropWhile p).filter (fun c => !p c) = l.filter (fun c => !p c) := by
  induction l with
  | nil => rfl
  | cons c cs ih =>
    by_cases h : p c = true
    · rw [List.dropWhile_cons]
      simp [h, ih, List.filter_cons]
    · rw [List.dropWhile_cons]
      simp [h]

theorem stripWs_jsTrim (s : String) : stripWs (jsTrim s) = stripWs s := by
  unfold stripWs jsTrim jsTrimL
  show String.mk _ = String.mk _
  rw [List.filter_reverse, filter_not_dropWhile, List.filter_reverse,
    filter_not_dropWhile, List.reverse_reverse]

theorem stripWs_of_jsTrim_empty (s : String) (h : (jsTrim s).isEmpty = true) :
    stripWs s = "" := by
  have h2 : jsTrim s = "" := (String.isEmpty_iff (jsTrim s)).mp h
  have h3 : stripWs (jsTrim s) = stripWs s := stripWs_jsTrim s
  rw [h2] at h3
  exact h3.symm

theorem join_nil : String.join [] = "" := rfl

theorem stripWs_empty : stripWs "" = "" := rfl

theorem concatTexts_nil : concatTexts [] = "" := rfl

theorem concatTexts_append (a b : List Chunk) :
    concatTexts (a ++ b) = concatTexts a ++ concatTexts b := by
  unfold concatTexts
  rw [List.map_append, join_append]

theorem concatTexts_singleton (c : Chunk) : concatTexts [c] = c.text := by
  unfold concatTexts
  rw [List.map_cons, List.map_nil, join_cons, join_nil, str_append_empty]

theorem chunkLoop_concat (maxChars : Nat) :
    ∀ (ss : List String) (chunks : List Chunk) (current : String) (n : Nat),
    stripWs (concatTexts (chunkLoop maxChars ss chunks current n)) =
      stripWs (concatTexts chunks) ++ stripWs current ++ stripWs (String.join ss) := by
  intro ss
  induction ss with
  | nil =>
    intro chunks current n
    unfold chunkLoop
    by_cases h : (jsTrim current).isEmpty = true
    · rw [if_neg (by simp [h])]
      rw [stripWs_of_jsTrim_empty current h, join_nil, stripWs_empty,
        str_append_empty, str_append_empty]
    · rw [if_pos (by simp [h])]
      rw [concatTexts_append, stripWs_append, concatTexts_singleton, stripWs_jsTrim,
        join_nil, stripWs_empty, str_append_empty]
  | cons s rest ih =>
    intro chunks current n
    unfold chunkLoop
    by_cases hcond : current.length + s.length > maxChars ∧ current.length > 0
    · rw [if_pos hcond, ih]
      rw [concatTexts_append, stripWs_append, concatTexts_singleton, stripWs_jsTrim,
        join_cons, stripWs_append]
      simp [String.append_assoc]
    · rw [if_neg hcond, ih]
      rw [stripWs_append, join_cons, stripWs_append]
      simp [String.append_assoc]

/--
C7 (amended): for every input and character limit, `autoChunk` returns a
(finite) chunk list whose concatenation, up to whitespace, reconstructs
exactly the concatenation of the code's sentence-unit list — the regex
matches of the trimmed input, or the whole trimmed input when it fits
within the limit or contains no match.  Text after the last sentence
terminator of an over-limit input is not in any match and is therefore
dropped, so the concatenation does not in general reconstruct the whole
input.
-/
theorem C7_autoChunk_concat (content : String) (maxChars : Nat) :
    stripWs (concatTexts (autoChunk content maxChars)) =
      stripWs (String.join (codeSentences content maxChars)) := by
  unfold autoChunk codeSentences
  by_cases h : (jsTrim content).length ≤ maxChars
  · rw [if_pos h, if_pos h]
    rw [concatTexts_singleton, join_cons, join_nil, str_append_empty]
  · rw [if_neg h, if_neg h]
    cases hm : sentenceUnits (jsTrim content) with
    | nil =>
      rw [chunkLoop_concat]
      simp only [concatTexts_nil, stripWs_empty, str_empty_append]
    | cons a as =>
      rw [chunkLoop_concat]
      simp only [concatTexts_nil, stripWs_empty, str_empty_append]

/-! ## Heading-mode fallback (claim C6) -/

theorem mem_finalizeSegments_source (raw : List RawSection) (opts : ChunkOptions)
    (hashFn : String → String → String → String) (sg : Segment)
    (h : sg ∈ finalizeSegments raw opts hashFn) : ∃ rs ∈ raw, sg.source = rs.source := by
  unfold finalizeSegments at h
  obtain ⟨p, hp, hpe⟩ := List.mem_map.mp h
  refine ⟨p.2, ?_, by rw [← hpe]⟩
  have h2 := List.mem_enum_iff_getElem?.mp hp
  obtain ⟨hlt, he⟩ := List.getElem?_eq_some.mp h2
  exact he ▸ List.getElem_mem hlt

theorem mem_introSections_source (env : TemplateEnv) (fOpt : Option String)
    (rs : RawSection) (h : rs ∈ introSections env fOpt) :
    rs.source = Source.template := by
  cases fOpt with
  | none =>
    have h0 : rs ∈ ([] : List RawSection) := h
    cases h0
  | some f =>
    have h2 : rs ∈ (match loadTemplate env f with
        | some t => if !t.isEmpty then [(⟨"Intro", t, Source.template⟩ : RawSection)] else []
        | none => ([] : List RawSection)) := h
    cases hl : loadTemplate env f with
    | none => rw [hl] at h2; cases h2
    | some t =>
      rw [hl] at h2
      have h4 : rs ∈ (if !t.isEmpty then
          [(⟨"Intro", t, Source.template⟩ : RawSection)] else []) := h2
      by_cases ht : t.isEmpty = true
      · rw [if_neg (by simp [ht])] at h4
        cases h4
      · rw [if_pos (by simp [ht])] at h4
        have h3 : rs = ⟨"Intro", t, Source.template⟩ := by simpa using h4
        rw [h3]

theorem mem_outroSections_source (env : TemplateEnv) (fOpt : Option String)
    (rs : RawSection) (h : rs ∈ outroSections env fOpt) :
    rs.source = Source.template := by
  cases fOpt with
  | none =>
    have h0 : rs ∈ ([] : List RawSection) := h
    cases h0
  | some f =>
    have h2 : rs ∈ (match loadTemplate env f with
        | some t => if !t.isEmpty then [(⟨"Outro", t, Source.template⟩ : RawSection)] else []
        | none => ([] : List RawSection)) := h
    cases hl : loadTemplate env f with
    | none => rw [hl] at h2; cases h2
    | some t =>
      rw [hl] at h2
      have h4 : rs ∈ (if !t.isEmpty then
          [(⟨"Outro", t, Source.template⟩ : RawSection)] else []) := h2
      by_cases ht : t.isEmpty = true
      · rw [if_neg (by simp [ht])] at h4
        cases h4
      · rw [if_pos (by simp [ht])] at h4
        have h3 : rs = ⟨"Outro", t, Source.template⟩ := by simpa using h4
        rw [h3]

theorem mem_applyTemplates_source (env : TemplateEnv) (opts : ChunkOptions)
    (raw : List RawSection) (rs : RawSection)
    (h : rs ∈ applyTemplates env opts raw) :
    rs ∈ raw ∨ rs.source = Source.template := by
  unfold applyTemplates at h
  cases ht : opts.template with
  | none => rw [ht] at h; exact Or.inl h
  | some tname =>
    rw [ht] at h
    simp only at h
    rcases List.mem_append.mp h with h1 | h2
    · rcases List.mem_append.mp h1 with h3 | h4
      · exact Or.inr (mem_introSections_source env _ rs h3)
      · exact Or.inl h4
    · exact Or.inr (mem_outroSections_source env _ rs h2)

/--
C6 (amended): `chunkScript` in headings mode falls back to length-based
chunking only when every parsed section's title is literally `'Preamble'`
or `'Untitled Section'` — under that hypothesis the pipeline is the
`autoChunk` pipeline and no produced segment carries `source = heading`.
A document whose only section is titled by its leading `#` heading (a
fallback title, not a `##` heading) passes the code's "real heading"
test and is NOT chunked, producing a single heading-tagged segment.
-/
theorem C6_fallback_when_only_preamble (content : String) (opts : ChunkOptions)
    (env : TemplateEnv) (hashFn : String → String → String → String)
    (hmode : opts.mode = ChunkMode.headings)
    (hall : ∀ s ∈ parseMarkdownHeadings content,
      s.title = "Preamble" ∨ s.title = "Untitled Section") :
    chunkScript content opts env hashFn =
      finalizeSegments (applyTemplates env opts
        ((autoChunk content opts.maxChars).map
          (fun s => ⟨s.title, s.text, Source.auto⟩))) opts hashFn ∧
    ∀ sg ∈ chunkScript content opts env hashFn, sg.source ≠ Source.heading := by
  have hraw : rawSectionsOf content opts =
      (autoChunk content opts.maxChars).map (fun s => ⟨s.title, s.text, Source.auto⟩) := by
    unfold rawSectionsOf
    rw [hmode]
    have hfalse : (parseMarkdownHeadings content).any
        (fun s => s.title ≠ "Preamble" ∧ s.title ≠ "Untitled Section") = false := by
      rw [List.any_eq_false]
      intro s hs
      rcases hall s hs with h1 | h1 <;> simp [h1]
    rw [if_neg]
    intro hcon
    rw [hfalse] at hcon
    cases hcon.1
  constructor
  · unfold chunkScript
    rw [hraw]
  · intro sg hsg
    unfold chunkScript at hsg
    rw [hraw] at hsg
    obtain ⟨rs, hrs, hsrc⟩ := mem_finalizeSegments_source _ opts hashFn sg hsg
    rcases mem_applyTemplates_source env opts _ rs hrs with hin | htpl
    · obtain ⟨c, _, hce⟩ := List.mem_map.mp hin
      rw [hsrc, ← hce]
      intro hcon
      cases hcon
    · rw [hsrc, htpl]
      intro hcon
      cases hcon

/-! ## Timeline claims (C8, C10) -/

/-- A fixture segment for timeline scenarios. -/
def tSeg (i : Nat) : Segment := ⟨i, "T", "t", "x", Source.auto, "h"⟩

/-- A fixture result with a given duration. -/
def tRes (i : Nat) (d : Rat) : RenderResult := ⟨tSeg i, "p", "f", false, d⟩

/-- The claim's worked example: durations 2.0, 3.5, 1.0. -/
def c8Results : List RenderResult := [tRes 1 2, tRes 2 3.5, tRes 3 1]

/--
C8: `buildTimeline` folds durations with a cumulative offset starting at
0 — on durations [2.0, 3.5, 1.0] the starts are [0, 2.0, 5.5], the ends
[2.0, 5.5, 6.5], the total 6.5, and `has_durations` is true; and
whenever some result's duration is 0, `has_durations` is false and both
`buildChapters` and `buildCaptionsSrt` return `none`.
-/
theorem C8_timeline_fold :
    ((buildTimeline c8Results).segments.map TimelineEntry.start_seconds =
        [0, 2, (11 : Rat) / 2] ∧
      (buildTimeline c8Results).segments.map TimelineEntry.end_seconds =
        [2, (11 : Rat) / 2, (13 : Rat) / 2] ∧
      (buildTimeline c8Results).total_duration_seconds = (13 : Rat) / 2 ∧
      (buildTimeline c8Results).has_durations = true) ∧
    ∀ (results : List RenderResult) (segs : List Segment),
      (∃ r ∈ results, r.duration = 0) →
      (buildTimeline results).has_durations = false ∧
      buildChapters (buildTimeline results) = none ∧
      buildCaptionsSrt (buildTimeline results) segs = none := by
  constructor
  · refine ⟨?_, ?_, ?_, ?_⟩ <;>
      norm_num [buildTimeline, timelineEntries, timelineTotal, c8Results, tRes, tSeg]
  · intro results segs ⟨r, hr, hd⟩
    have hfd : (buildTimeline results).has_durations = false := by
      unfold buildTimeline
      simp only
      rw [List.all_eq_false]
      exact ⟨r, hr, by simp [hd]⟩
    refine ⟨hfd, ?_, ?_⟩
    · unfold buildChapters
      rw [if_pos hfd]
    · unfold buildCaptionsSrt
      rw [if_pos hfd]

/--
C10: `buildTimeline` on an empty result list yields no entries, total 0,
and (vacuously) `has_durations = true`; `buildChapters` on that timeline
returns the empty string, not `none`.
-/
theorem C10_empty_timeline :
    buildTimeline ([] : List RenderResult) =
      ⟨[], 0, true⟩ ∧
    buildChapters (buildTimeline ([] : List RenderResult)) = some "" := by
  exact ⟨rfl, rfl⟩

/-! ## Concrete scenarios -/

/-- A one-segment script fixture. -/
def wSeg : Segment := ⟨1, "Alpha", "alpha", "Hello there.", Source.heading, "h1"⟩

def wOpts : RenderOptions := ⟨"v1", "out", false, false, none⟩

def wForceOpts : RenderOptions := ⟨"v1", "out", true, false, none⟩

/-- A world where `wSeg` is a clean cache hit. -/
def wHitEnv : Env :=
  ⟨fun k => if k = "001-alpha" then some ⟨"h1", "001-alpha.wav", 2⟩ else none,
   fun p => p = "out/segments/001-alpha.wav",
   fun _ => Except.error "offline",
   fun _ => none⟩

/-- A cold-cache world where synthesis reports 3 s but probing finds 7 s. -/
def wMissEnv : Env :=
  ⟨fun _ => none, fun _ => false,
   fun _ => Except.ok ⟨"AUDIO", 3⟩,
   fun p => if p = "out/segments/001-alpha.wav" then some 7 else none⟩

/-- A cold-cache world where synthesis fails. -/
def wFailEnv : Env :=
  ⟨fun _ => none, fun _ => false, fun _ => Except.error "boom", fun _ => none⟩

/-- A world whose manifest holds a stale key for a segment no longer in
the script. -/
def wOldEnv : Env :=
  ⟨fun k => if k = "000-old" then some ⟨"h0", "old.wav", 1⟩ else none,
   fun _ => false,
   fun _ => Except.ok ⟨"AUDIO", 3⟩,
   fun _ => none⟩

/-- The world of the second pass after rendering in `wMissEnv`. -/
def wEnv2 : Env :=
  ⟨manifestAfter [wSeg] wMissEnv wOpts, postFileExists [wSeg] wMissEnv wOpts,
   wMissEnv.tts, wMissEnv.probe⟩

/-- C1 witness. -/
theorem C1_cache_hit_iff_witness :
    passOk [wSeg] wHitEnv wOpts = true ∧
    ((resultsOf [wSeg] wHitEnv wOpts).get ⟨0, by decide⟩).cached = true ∧
    ((resultsOf [wSeg] wHitEnv wOpts).get ⟨0, by decide⟩).duration = 2 ∧
    wSeg ∉ ttsCallsOf [wSeg] wHitEnv wOpts := by
  have hthm := C1_cache_hit_iff [wSeg] wHitEnv wOpts (by decide) 0 (by decide) (by decide)
  exact ⟨by decide, by decide, by decide, (hthm.2 (by decide)).2⟩

/-- C2 counterexample: on this concrete miss the returned result's
duration is the probed 7 s while the cache entry records the response's
3 s — the entry does not carry the result's duration. -/
theorem C2_cached_duration_counterexample :
    passOk [wSeg] wMissEnv wOpts = true ∧
    (resultsOf [wSeg] wMissEnv wOpts).map RenderResult.duration = [(7 : Rat)] ∧
    (manifestAfter [wSeg] wMissEnv wOpts "001-alpha").map CacheEntry.duration =
      some (3 : Rat) ∧
    (7 : Rat) ≠ (3 : Rat) := by
  exact ⟨by decide, by decide, by decide, by decide⟩

/-- C2 witness (for the amended theorem). -/
theorem C2_miss_cache_entry_witness :
    passOk [wSeg] wMissEnv wOpts = true ∧
    (∃ resp, wMissEnv.tts (reqOfSeg wOpts wSeg) = Except.ok resp ∧
      manifestAfter [wSeg] wMissEnv wOpts (segmentCacheKey wSeg) =
        some ⟨wSeg.hash, segmentFileName wSeg, resp.duration_seconds⟩ ∧
      ((resultsOf [wSeg] wMissEnv wOpts).get ⟨0, by decide⟩).duration =
        (wMissEnv.probe (segmentFilePath wOpts wSeg)).getD resp.duration_seconds) := by
  have hthm := C2_miss_cache_entry [wSeg] wMissEnv wOpts (by decide) (by decide)
    0 (by decide) (by decide) (by decide)
  exact ⟨by decide, hthm⟩

/-- C3 witness. -/
theorem C3_synthesis_failure_witness :
    (renderSegments [wSeg] wFailEnv wOpts).results =
      Except.error "Failed to render segment \"Alpha\": boom" ∧
    ttsCallsOf [wSeg] wFailEnv wOpts = [wSeg] ∧
    writtenOf [wSeg] wFailEnv wOpts = [] ∧
    manifestAfter [wSeg] wFailEnv wOpts "001-alpha" = none := by
  have hthm := C3_synthesis_failure [wSeg] wFailEnv wOpts 0 (by decide) (by decide)
    "boom" (by intro r hr hc; exact absurd hr (by simp)) (by decide) rfl
  exact ⟨hthm.1, by decide, by decide, (hthm.2.2.2.1 "001-alpha").trans (by decide)⟩

/-- C4 witness. -/
theorem C4_cache_roundtrip_witness :
    passOk [wSeg] wMissEnv wOpts = true ∧
    passOk [wSeg] wEnv2 wOpts = true ∧
    (∀ r ∈ resultsOf [wSeg] wEnv2 wOpts, r.cached = true) ∧
    ttsCallsOf [wSeg] wEnv2 wOpts = [] ∧
    ((resultsOf [wSeg] wEnv2 wOpts).filter (fun r => r.cached)).length = 1 := by
  have hthm := C4_cache_roundtrip [wSeg] wMissEnv wOpts wMissEnv.tts wMissEnv.probe
    (by decide) (by decide) wEnv2 rfl { wOpts with force := false } rfl
  exact ⟨by decide, hthm.1, hthm.2.1, hthm.2.2.1, hthm.2.2.2⟩

/-- C5 counterexample: with `force = true` the key `000-old`, present in
the on-disk manifest before the pass, is absent from the saved manifest. -/
theorem C5_force_drops_keys_counterexample :
    (wOldEnv.diskCache "000-old").isSome = true ∧
    passOk [wSeg] wOldEnv wForceOpts = true ∧
    manifestAfter [wSeg] wOldEnv wForceOpts "000-old" = none := by
  exact ⟨by decide, by decide, by decide⟩

/-- C5 witness (for the amended theorem). -/
theorem C5_no_key_loss_witness :
    wOpts.force = false ∧
    (wOldEnv.diskCache "000-old").isSome = true ∧
    (manifestAfter [wSeg] wOldEnv wOpts "000-old").isSome = true :=
  ⟨rfl, by decide,
    C5_no_key_loss_without_force [wSeg] wOldEnv wOpts rfl "000-old" (by decide)⟩

/-- C9 witness. -/
theorem C9_hits_leave_entries_unchanged_witness :
    wOpts.force = false ∧
    passOk [wSeg] wHitEnv wOpts = true ∧
    ((resultsOf [wSeg] wHitEnv wOpts).get ⟨0, by decide⟩).cached = true ∧
    manifestAfter [wSeg] wHitEnv wOpts (segmentCacheKey wSeg) =
      wHitEnv.diskCache (segmentCacheKey wSeg) := by
  have hthm := C9_hits_leave_entries_unchanged [wSeg] wHitEnv wOpts rfl
    (by decide) (by decide)
  exact ⟨rfl, by decide, by decide, hthm.2 0 (by decide) (by decide) (by decide)⟩

/-- The C6 counterexample document: an H1 title, no `##` headings, and a
multi-sentence body longer than the chunk limit. -/
def c6doc : String := "# My Title\nOne two. Three four. Five six."

def c6opts : ChunkOptions := ⟨ChunkMode.headings, 10, none, none, "v"⟩

def c6env : TemplateEnv := ⟨fun _ => none⟩

def c6hash : String → String → String → String := fun _ _ _ => "h"

/-- C6 counterexample: the document has no `##` heading line at all, so
its heading parse has only fallback-titled sections, yet heading-mode
`chunkScript` does not fall back — it emits one monolithic heading-tagged
segment longer than `maxChars`. -/
theorem C6_h1_defeats_fallback_counterexample :
    ((splitLines c6doc).all (fun l => (h2MatchTitle l).isNone)) = true ∧
    chunkScript c6doc c6opts c6env c6hash =
      [⟨1, "My Title", "my-title", "One two. Three four. Five six.",
        Source.heading, "h"⟩] ∧
    c6opts.maxChars < "One two. Three four. Five six.".length := by
  exact ⟨by decide, by decide, by decide⟩

/-- A plain-text document: every parsed section is fallback-titled
`Preamble`. -/
def c6PlainDoc : String := "One two. Three four."

/-- C6 witness (for the amended theorem). -/
theorem C6_fallback_when_only_preamble_witness :
    (∀ s ∈ parseMarkdownHeadings c6PlainDoc,
      s.title = "Preamble" ∨ s.title = "Untitled Section") ∧
    chunkScript c6PlainDoc c6opts c6env c6hash =
      finalizeSegments (applyTemplates c6env c6opts
        ((autoChunk c6PlainDoc c6opts.maxChars).map
          (fun s => ⟨s.title, s.text, Source.auto⟩))) c6opts c6hash ∧
    ∀ sg ∈ chunkScript c6PlainDoc c6opts c6env c6hash, sg.source ≠ Source.heading := by
  have hthm := C6_fallback_when_only_preamble c6PlainDoc c6opts c6env c6hash rfl (by decide)
  exact ⟨by decide, hthm.1, hthm.2⟩

/-- C7 counterexample: `"Aa. Bbbb"` with limit 5 chunks to `["Aa."]` —
the trailing text `"Bbbb"`, which follows the last sentence terminator,
is dropped, so no whitespace-insensitive reading of the concatenation
reconstructs the input. -/
theorem C7_trailing_text_dropped_counterexample :
    autoChunk "Aa. Bbbb" 5 = [⟨"Segment 1", "Aa."⟩] ∧
    stripWs (concatTexts (autoChunk "Aa. Bbbb" 5)) ≠ stripWs (jsTrim "Aa. Bbbb") := by
  exact ⟨by decide, by decide⟩

/-- A results list with a zero duration. -/
def c8ZeroResults : List RenderResult := [tRes 1 2, tRes 2 0]

/-- C8 witness. -/
theorem C8_timeline_fold_witness :
    (buildTimeline c8ZeroResults).has_durations = false ∧
    buildChapters (buildTimeline c8ZeroResults) = none ∧
    buildCaptionsSrt (buildTimeline c8ZeroResults) [] = none :=
  C8_timeline_fold.2 c8ZeroResults []
    ⟨tRes 2 0, List.Mem.tail _ (List.Mem.head _), rfl⟩

end VoiceAI
